import Mathlib

/-!
Shallow embedding of the `ElevationSmoother` class from
`src/shared/testing_data/test_elevation_smoothing.py` (part of SnowTeeth).
Elevations, accuracies and smoothing coefficients are modelled as rationals;
Python lists become Lean lists, the `Optional[float]` field becomes `Option ℚ`,
and the `-1.0` sentinel for "no vertical accuracy supplied" is kept as in the
source.  All definitions are executable.
-/

namespace SnowTeeth

/-- The constructor parameters of `ElevationSmoother.__init__`. -/
structure Config where
  vertical_accuracy_threshold : ℚ
  alpha_min : ℚ
  alpha_max : ℚ
  trend_window : ℕ
  spike_reversal_threshold : ℚ
deriving Repr, DecidableEq

/-- The default constructor arguments of `ElevationSmoother`. -/
def defaultConfig : Config :=
  { vertical_accuracy_threshold := 20
    alpha_min := 1/4
    alpha_max := 3/4
    trend_window := 5
    spike_reversal_threshold := 3 }

/-- The mutable state of an `ElevationSmoother` instance:
`previous_smoothed`, `recent_elevations` (raw window) and
`recent_accepted_elevations` (accepted window). -/
structure SmootherState where
  previous_smoothed : Option ℚ
  recent_elevations : List ℚ
  recent_accepted_elevations : List ℚ
deriving Repr, DecidableEq

/-- State of a freshly constructed `ElevationSmoother`. -/
def initState : SmootherState :=
  { previous_smoothed := none
    recent_elevations := []
    recent_accepted_elevations := [] }

/-- `ElevationSmoother.reset`. -/
def resetState (_s : SmootherState) : SmootherState := initState

/-- `lst.append(v)` followed by `if len(lst) > cap: lst.pop(0)`:
the push used for both windows in `add_reading`. -/
def pushWindow (cap : ℕ) (l : List ℚ) (v : ℚ) : List ℚ :=
  if cap < (l ++ [v]).length then (l ++ [v]).tail else l ++ [v]

/-- The list `changes`: consecutive differences `l[i] - l[i-1]`. -/
def changesOf (l : List ℚ) : List ℚ :=
  List.zipWith (fun a b => a - b) l.tail l

/-- `1 if c > 0 else (-1 if c < 0 else 0)`, as used in Pattern 2. -/
def signOf (c : ℚ) : ℤ :=
  if 0 < c then 1 else if c < 0 then -1 else 0

/-- Pattern 1 of `_estimate_accuracy_from_pattern`: the last two changes both
exceed `spike_reversal_threshold` in absolute value and have opposite signs. -/
def revSpikeCond (cfg : Config) (chs : List ℚ) : Prop :=
  2 ≤ chs.length ∧
  cfg.spike_reversal_threshold < |chs.getD (chs.length - 1) 0| ∧
  cfg.spike_reversal_threshold < |chs.getD (chs.length - 2) 0| ∧
  ((0 < chs.getD (chs.length - 1) 0 ∧ chs.getD (chs.length - 2) 0 < 0) ∨
   (chs.getD (chs.length - 1) 0 < 0 ∧ 0 < chs.getD (chs.length - 2) 0))

instance (cfg : Config) (chs : List ℚ) : Decidable (revSpikeCond cfg chs) := by
  unfold revSpikeCond; infer_instance

/-- Pattern 2 of `_estimate_accuracy_from_pattern`: at least three changes,
`signs[0..2]` all non-zero and alternating. -/
def oscillationCond (chs : List ℚ) : Prop :=
  3 ≤ chs.length ∧
  signOf (chs.getD 0 0) ≠ 0 ∧ signOf (chs.getD 1 0) ≠ 0 ∧
  signOf (chs.getD 2 0) ≠ 0 ∧
  signOf (chs.getD 0 0) ≠ signOf (chs.getD 1 0) ∧
  signOf (chs.getD 1 0) ≠ signOf (chs.getD 2 0)

instance (chs : List ℚ) : Decidable (oscillationCond chs) := by
  unfold oscillationCond; infer_instance

/-- `sum(lst) / len(lst)`. -/
def meanOf (l : List ℚ) : ℚ := l.sum / (l.length : ℚ)

/-- `max(abs(e - mean) for e in lst)` (the list is non-empty whenever this is
reached, and all deviations are non-negative, so folding from `0` agrees). -/
def maxDeviation (l : List ℚ) : ℚ :=
  (l.map (fun e => |e - meanOf l|)).foldr max 0

/-- Pattern 3 of `_estimate_accuracy_from_pattern`: at least 5 points and all
deviations from the mean below 1.0. -/
def microJitterCond (w : List ℚ) : Prop :=
  5 ≤ w.length ∧ maxDeviation w < 1

instance (w : List ℚ) : Decidable (microJitterCond w) := by
  unfold microJitterCond; infer_instance

/-- `ElevationSmoother._estimate_accuracy_from_pattern`, as a pure function of
the raw window. -/
def estimateAccuracyFromPattern (cfg : Config) (w : List ℚ) : ℚ :=
  if w.length < 4 then 20
  else if revSpikeCond cfg (changesOf w) then 30
  else if oscillationCond (changesOf w) then 25
  else if microJitterCond w then 15
  else 8

/-- `sum(1 for c in changes if c > 0)` over the accepted window. -/
def posCount (w : List ℚ) : ℕ :=
  (changesOf w).countP (fun c => decide (0 < c))

/-- `sum(1 for c in changes if c < 0)` over the accepted window. -/
def negCount (w : List ℚ) : ℕ :=
  (changesOf w).countP (fun c => decide (c < 0))

/-- `total_non_zero = positive_count + negative_count`. -/
def totalNonZero (w : List ℚ) : ℕ := posCount w + negCount w

/-- `ElevationSmoother._calculate_adaptive_alpha`, as a pure function of the
accepted window. -/
def calculateAdaptiveAlpha (cfg : Config) (w : List ℚ) : ℚ :=
  if w.length < 3 then cfg.alpha_min
  else if totalNonZero w = 0 then cfg.alpha_min
  else
    let trend_strength : ℚ := (max (posCount w) (negCount w) : ℚ) / (totalNonZero w : ℚ)
    let avg_magnitude : ℚ := ((changesOf w).map (fun c => |c|)).sum / ((changesOf w).length : ℚ)
    let magnitude_boost : ℚ := min (avg_magnitude / 2) 1
    let combined_strength : ℚ := (trend_strength + magnitude_boost) / 2
    let alpha : ℚ := cfg.alpha_min + combined_strength * (cfg.alpha_max - cfg.alpha_min)
    max cfg.alpha_min (min cfg.alpha_max alpha)

/-- `accuracy_to_use`: the supplied vertical accuracy when it is `>= 0`,
otherwise the pattern estimate on the raw window after the current elevation
has been pushed. -/
def accuracyToUse (cfg : Config) (s : SmootherState) (elevation va : ℚ) : ℚ :=
  if 0 ≤ va then va
  else estimateAccuracyFromPattern cfg (pushWindow 4 s.recent_elevations elevation)

/-- `ElevationSmoother.add_reading`, returning the smoothed elevation together
with the successor state. -/
def addReading (cfg : Config) (s : SmootherState) (elevation va : ℚ) : ℚ × SmootherState :=
  let raw := pushWindow 4 s.recent_elevations elevation
  let rejected : Bool :=
    decide (cfg.vertical_accuracy_threshold < accuracyToUse cfg s elevation va) &&
      s.previous_smoothed.isSome
  let elevation_to_smooth :=
    if rejected then s.previous_smoothed.getD elevation else elevation
  let accepted :=
    if rejected then s.recent_accepted_elevations
    else pushWindow cfg.trend_window s.recent_accepted_elevations elevation_to_smooth
  let alpha := calculateAdaptiveAlpha cfg accepted
  let smoothed :=
    match s.previous_smoothed with
    | none => elevation_to_smooth
    | some p => alpha * elevation_to_smooth + (1 - alpha) * p
  (smoothed, ⟨some smoothed, raw, accepted⟩)

/-- Feed a list of `(elevation, vertical_accuracy)` readings, collecting the
returned smoothed elevations. -/
def runReadings (cfg : Config) : SmootherState → List (ℚ × ℚ) → List ℚ
  | _, [] => []
  | s, (e, va) :: rest =>
      (addReading cfg s e va).1 :: runReadings cfg (addReading cfg s e va).2 rest

/-- Feed a list of elevations with no vertical accuracy supplied (the Python
default argument `-1.0`). -/
def runElevs (cfg : Config) (s : SmootherState) (l : List ℚ) : List ℚ :=
  runReadings cfg s (l.map (fun e => (e, -1)))

/-- One externally visible operation on an `ElevationSmoother` instance. -/
inductive SmootherOp where
  | read (elevation va : ℚ)
  | doReset
deriving Repr

/-- Apply one operation to a state. -/
def applyOp (cfg : Config) (s : SmootherState) : SmootherOp → SmootherState
  | .read e va => (addReading cfg s e va).2
  | .doReset => resetState s

/-- The state reached from a fresh instance by a sequence of operations. -/
def runOps (cfg : Config) (ops : List SmootherOp) : SmootherState :=
  ops.foldl (applyOp cfg) initState

/-! ### Helper lemmas -/

theorem addReading_raw (cfg : Config) (s : SmootherState) (e va : ℚ) :
    (addReading cfg s e va).2.recent_elevations = pushWindow 4 s.recent_elevations e := rfl

theorem pushWindow_length_le (cap : ℕ) (l : List ℚ) (v : ℚ) (h : l.length ≤ cap) :
    (pushWindow cap l v).length ≤ cap := by
  unfold pushWindow
  split
  · simpa using h
  · omega

theorem mem_pushWindow {cap : ℕ} {l : List ℚ} {v x : ℚ}
    (h : x ∈ pushWindow cap l v) : x ∈ l ∨ x = v := by
  unfold pushWindow at h
  split at h
  · have := List.mem_of_mem_tail h
    simpa using this
  · simpa using h

theorem changesOf_length (l : List ℚ) : (changesOf l).length = l.length - 1 := by
  unfold changesOf
  rcases l with _ | ⟨a, t⟩
  · simp
  · simp [Nat.min_def]

theorem changesOf_cons_cons (a b : ℚ) (t : List ℚ) :
    changesOf (a :: b :: t) = (b - a) :: changesOf (b :: t) := rfl

theorem changesOf_all_zero {v : ℚ} :
    ∀ {w : List ℚ}, (∀ x ∈ w, x = v) → ∀ c ∈ changesOf w, c = 0 := by
  intro w
  induction w with
  | nil => intro _ c hc; simp [changesOf] at hc
  | cons a t ih =>
    intro hall c hc
    rcases t with _ | ⟨b, t'⟩
    · simp [changesOf] at hc
    · rw [changesOf_cons_cons] at hc
      rcases List.mem_cons.mp hc with hc | hc
      · have ha : a = v := hall a (by simp)
        have hb : b = v := hall b (by simp)
        rw [hc, ha, hb, sub_self]
      · exact ih (fun x hx => hall x (List.mem_cons_of_mem a hx)) c hc

theorem totalNonZero_of_all_eq {v : ℚ} {w : List ℚ}
    (hall : ∀ x ∈ w, x = v) : totalNonZero w = 0 := by
  have hz := changesOf_all_zero hall
  unfold totalNonZero posCount negCount
  rw [Nat.add_eq_zero]
  constructor <;>
  · rw [List.countP_eq_zero]
    intro c hc
    have := hz c hc
    simp [this]

theorem adaptiveAlpha_of_all_eq (cfg : Config) {v : ℚ} {w : List ℚ}
    (hall : ∀ x ∈ w, x = v) : calculateAdaptiveAlpha cfg w = cfg.alpha_min := by
  unfold calculateAdaptiveAlpha
  split
  · rfl
  · rw [if_pos (totalNonZero_of_all_eq hall)]

end SnowTeeth

namespace SnowTeeth

theorem addReading_const_step (cfg : Config) (v : ℚ) (s : SmootherState)
    (hacc : ∀ x ∈ s.recent_accepted_elevations, x = v)
    (hprev : s.previous_smoothed = none ∨ s.previous_smoothed = some v) :
    (addReading cfg s v (-1)).1 = v ∧
    (∀ x ∈ (addReading cfg s v (-1)).2.recent_accepted_elevations, x = v) ∧
    (addReading cfg s v (-1)).2.previous_smoothed = some v := by
  rcases hprev with h | h
  · refine ⟨by simp [addReading, h], ?_, by simp [addReading, h]⟩
    simp only [addReading, h, Option.isSome_none, Bool.and_false, Bool.false_eq_true, if_false]
    intro x hx
    rcases mem_pushWindow hx with hx' | hx'
    · exact hacc x hx'
    · exact hx'
  · simp only [addReading, h, Option.isSome_some, Bool.and_true, Option.getD_some, ite_self]
    refine ⟨by ring, ?_, by congr 1; ring⟩
    intro x hx
    split at hx
    · exact hacc x hx
    · rcases mem_pushWindow hx with hx' | hx'
      · exact hacc x hx'
      · exact hx'

theorem runElevs_const (cfg : Config) (v : ℚ) :
    ∀ (n : ℕ) (s : SmootherState),
      (∀ x ∈ s.recent_accepted_elevations, x = v) →
      (s.previous_smoothed = none ∨ s.previous_smoothed = some v) →
      runElevs cfg s (List.replicate n v) = List.replicate n v := by
  intro n
  induction n with
  | zero => intro s _ _; rfl
  | succ k ih =>
    intro s hacc hprev
    obtain ⟨h1, h2, h3⟩ := addReading_const_step cfg v s hacc hprev
    have ih' := ih (addReading cfg s v (-1)).2 h2 (Or.inr h3)
    simp only [runElevs, List.replicate_succ, List.map_cons, runReadings] at ih' ⊢
    rw [h1, ih']

/-- Claim C2: feeding a fresh filter any number N >= 1 of identical elevation
readings (no accuracy supplied) makes every call return exactly that
elevation. -/
theorem spec_C2 (cfg : Config) (v : ℚ) (n : ℕ) (_h : 1 ≤ n) :
    runElevs cfg initState (List.replicate n v) = List.replicate n v :=
  runElevs_const cfg v n initState (by simp [initState]) (Or.inl rfl)

theorem spec_C2_witness :
    1 ≤ 3 ∧ runElevs defaultConfig initState (List.replicate 3 7) = List.replicate 3 7 :=
  ⟨by decide, spec_C2 defaultConfig 7 3 (by decide)⟩

/-- Claim C3: for every configuration and every first reading (any elevation,
any supplied accuracy), the first call on a fresh or just-reset filter (state
with `previous_smoothed = none`) returns the reading's elevation unmodified. -/
theorem spec_C3 (cfg : Config) (s : SmootherState) (e va : ℚ)
    (h : s.previous_smoothed = none) : (addReading cfg s e va).1 = e := by
  simp [addReading, h]

theorem spec_C3_witness : (addReading defaultConfig initState 42 (-1)).1 = 42 :=
  spec_C3 defaultConfig initState 42 (-1) rfl

/-- Claim C5: under the precondition `alpha_min <= alpha_max`, the alpha
computed by `_calculate_adaptive_alpha` on any accepted window satisfies
`alpha_min <= alpha <= alpha_max`. -/
theorem spec_C5 (cfg : Config) (w : List ℚ) (h : cfg.alpha_min ≤ cfg.alpha_max) :
    cfg.alpha_min ≤ calculateAdaptiveAlpha cfg w ∧
    calculateAdaptiveAlpha cfg w ≤ cfg.alpha_max := by
  unfold calculateAdaptiveAlpha
  split
  · exact ⟨le_refl _, h⟩
  split
  · exact ⟨le_refl _, h⟩
  · exact ⟨le_max_left _ _, max_le h (min_le_left _ _)⟩

theorem spec_C5_witness :
    defaultConfig.alpha_min ≤ calculateAdaptiveAlpha defaultConfig [1, 5, 2, 9] ∧
    calculateAdaptiveAlpha defaultConfig [1, 5, 2, 9] ≤ defaultConfig.alpha_max :=
  spec_C5 defaultConfig [1, 5, 2, 9] (by norm_num [defaultConfig])

/-- Claim C6: calling `reset()` and then feeding any input sequence produces
exactly the output sequence of a freshly constructed filter with the same
configuration. -/
theorem spec_C6 (cfg : Config) (s : SmootherState) (rs : List (ℚ × ℚ)) :
    runReadings cfg (resetState s) rs = runReadings cfg initState rs := rfl

/-- Claim C1: with the default configuration and no vertical accuracy
supplied, the readings 10, 10, 10, 10, 100, 10, 10 produce exactly the
outputs 10, 10, 10, 10, 77.5, 77.5, 35.3125. -/
theorem spec_C1 :
    runElevs defaultConfig initState [10, 10, 10, 10, 100, 10, 10] =
      [10, 10, 10, 10, 77.5, 77.5, 35.3125] := by
  norm_num [runElevs, runReadings, addReading, accuracyToUse, estimateAccuracyFromPattern,
    calculateAdaptiveAlpha, pushWindow, changesOf, revSpikeCond, oscillationCond,
    microJitterCond, signOf, posCount, negCount, totalNonZero, meanOf, maxDeviation,
    initState, defaultConfig]

end SnowTeeth

namespace SnowTeeth

theorem not_rejected_accepted (cfg : Config) (s : SmootherState) (e va : ℚ)
    (h : ¬ cfg.vertical_accuracy_threshold < accuracyToUse cfg s e va) :
    (addReading cfg s e va).2.recent_accepted_elevations =
      pushWindow cfg.trend_window s.recent_accepted_elevations e := by
  simp [addReading, h]

/-- Claim C4: when the accuracy in use exceeds `vertical_accuracy_threshold`
and `last_smoothed` is defined, `add_reading` returns the previous
`last_smoothed` exactly and leaves the accepted window unchanged; when
`last_smoothed` is undefined, the poor-accuracy reading is used as-is. -/
theorem spec_C4 (cfg : Config) (s : SmootherState) (e va : ℚ)
    (hpoor : cfg.vertical_accuracy_threshold < accuracyToUse cfg s e va) :
    (∀ p, s.previous_smoothed = some p →
       (addReading cfg s e va).1 = p ∧
       (addReading cfg s e va).2.recent_accepted_elevations = s.recent_accepted_elevations) ∧
    (s.previous_smoothed = none → (addReading cfg s e va).1 = e) := by
  constructor
  · intro p hp
    simp only [addReading, hp, Option.isSome_some, Bool.and_true, decide_eq_true hpoor,
      if_true, Option.getD_some]
    exact ⟨by ring, trivial⟩
  · intro hn
    simp [addReading, hn]

theorem spec_C4_witness :
    (addReading defaultConfig ⟨some 5, [], []⟩ 10 30).1 = 5 ∧
    (addReading defaultConfig ⟨some 5, [], []⟩ 10 30).2.recent_accepted_elevations = [] :=
  (spec_C4 defaultConfig ⟨some 5, [], []⟩ 10 30 (by norm_num [accuracyToUse, defaultConfig])).1 5 rfl

/-- Claim C8: with no supplied accuracy (negative sentinel) and a raw window
of fewer than 4 elements the pattern estimate is 20.0, and since the gate
compares with strict greater-than, under the default threshold 20.0 the
reading is accepted; more generally an accuracy exactly equal to the
threshold is accepted. -/
theorem spec_C8 (cfg : Config) (s : SmootherState) (e va : ℚ) :
    (va < 0 → (pushWindow 4 s.recent_elevations e).length < 4 →
       accuracyToUse cfg s e va = 20 ∧
       (cfg.vertical_accuracy_threshold = 20 →
          (addReading cfg s e va).2.recent_accepted_elevations =
            pushWindow cfg.trend_window s.recent_accepted_elevations e)) ∧
    (accuracyToUse cfg s e va = cfg.vertical_accuracy_threshold →
       (addReading cfg s e va).2.recent_accepted_elevations =
         pushWindow cfg.trend_window s.recent_accepted_elevations e) := by
  constructor
  · intro hva hlen
    have hacc : accuracyToUse cfg s e va = 20 := by
      unfold accuracyToUse
      rw [if_neg (not_le.mpr hva)]
      unfold estimateAccuracyFromPattern
      rw [if_pos hlen]
    refine ⟨hacc, fun ht => ?_⟩
    apply not_rejected_accepted
    rw [hacc, ht]
    exact lt_irrefl 20
  · intro heq
    apply not_rejected_accepted
    rw [heq]
    exact lt_irrefl _

theorem spec_C8_witness :
    accuracyToUse defaultConfig initState 7 (-1) = 20 ∧
    (defaultConfig.vertical_accuracy_threshold = 20 →
      (addReading defaultConfig initState 7 (-1)).2.recent_accepted_elevations =
        pushWindow defaultConfig.trend_window initState.recent_accepted_elevations 7) :=
  (spec_C8 defaultConfig initState 7 (-1)).1 (by norm_num) (by norm_num [pushWindow, initState])

/-- Claim C9: `add_reading` is total, and both divisions in the adaptive-alpha
computation are guarded: with at least 3 accepted elements there are at least
2 differences, and when `total_non_zero = 0` the function returns `alpha_min`
without dividing. -/
theorem spec_C9 (cfg : Config) (w : List ℚ) (h3 : 3 ≤ w.length) :
    2 ≤ (changesOf w).length ∧
    (totalNonZero w = 0 → calculateAdaptiveAlpha cfg w = cfg.alpha_min) ∧
    (∀ (s : SmootherState) (e va : ℚ), ∃ out s', addReading cfg s e va = (out, s')) := by
  refine ⟨?_, ?_, ?_⟩
  · rw [changesOf_length]; omega
  · intro h0
    unfold calculateAdaptiveAlpha
    rw [if_neg (by omega), if_pos h0]
  · exact fun s e va => ⟨_, _, rfl⟩

theorem spec_C9_witness :
    2 ≤ (changesOf [(0 : ℚ), 0, 0]).length ∧
    calculateAdaptiveAlpha defaultConfig [0, 0, 0] = defaultConfig.alpha_min ∧
    (∃ out s', addReading defaultConfig initState 3 (-1) = (out, s')) :=
  ⟨(spec_C9 defaultConfig [0, 0, 0] (by norm_num)).1,
   (spec_C9 defaultConfig [0, 0, 0] (by norm_num)).2.1
     (by norm_num [totalNonZero, posCount, negCount, changesOf]),
   (spec_C9 defaultConfig [0, 0, 0] (by norm_num)).2.2 initState 3 (-1)⟩

theorem estimate_range (cfg : Config) (w : List ℚ) (h : w.length ≤ 4) :
    estimateAccuracyFromPattern cfg w = 20 ∨ estimateAccuracyFromPattern cfg w = 30 ∨
    estimateAccuracyFromPattern cfg w = 25 ∨ estimateAccuracyFromPattern cfg w = 8 := by
  unfold estimateAccuracyFromPattern
  split
  · exact Or.inl rfl
  split
  · exact Or.inr (Or.inl rfl)
  split
  · exact Or.inr (Or.inr (Or.inl rfl))
  split
  · rename_i hmw
    obtain ⟨h5, -⟩ := hmw
    omega
  · exact Or.inr (Or.inr (Or.inr rfl))

theorem runOps_raw_length (cfg : Config) (ops : List SmootherOp) :
    (runOps cfg ops).recent_elevations.length ≤ 4 := by
  have key : ∀ (l : List SmootherOp) (s : SmootherState), s.recent_elevations.length ≤ 4 →
      (List.foldl (applyOp cfg) s l).recent_elevations.length ≤ 4 := by
    intro l
    induction l with
    | nil => intro s hs; exact hs
    | cons op t ih =>
      intro s hs
      rw [List.foldl_cons]
      apply ih
      cases op with
      | read e va =>
          simp only [applyOp, addReading_raw]
          exact pushWindow_length_le 4 _ e hs
      | doReset => simp [applyOp, resetState, initState]
  exact key ops initState (by simp [initState])

/-- Claim C10: in every state reachable by `add_reading` and `reset` calls the
raw window holds at most 4 elements, so the estimate computed by `add_reading`
(on the window just after the push) is always 20, 30, 25 or 8 - the
micro-jitter value 15 is unreachable. -/
theorem spec_C10 (cfg : Config) (ops : List SmootherOp) (e : ℚ) :
    (runOps cfg ops).recent_elevations.length ≤ 4 ∧
    (estimateAccuracyFromPattern cfg (pushWindow 4 (runOps cfg ops).recent_elevations e) = 20 ∨
     estimateAccuracyFromPattern cfg (pushWindow 4 (runOps cfg ops).recent_elevations e) = 30 ∨
     estimateAccuracyFromPattern cfg (pushWindow 4 (runOps cfg ops).recent_elevations e) = 25 ∨
     estimateAccuracyFromPattern cfg (pushWindow 4 (runOps cfg ops).recent_elevations e) = 8) :=
  ⟨runOps_raw_length cfg ops,
   estimate_range cfg _ (pushWindow_length_le 4 _ e (runOps_raw_length cfg ops))⟩

theorem signOf_pos {c : ℚ} (h : 0 < c) : signOf c = 1 := by
  unfold signOf
  rw [if_pos h]

theorem signOf_neg {c : ℚ} (h : c < 0) : signOf c = -1 := by
  unfold signOf
  rw [if_neg (not_lt.mpr h.le), if_pos h]

/-- Claim C7 (amended): for every raw window of exactly 4 elements (the only
windows of length at least 4 that `add_reading` can build, the capacity being
4) whose differences do not match the reversal-spike rule, if the last three
differences are all non-zero and strictly alternate in sign then the pattern
estimate is 25.0. -/
theorem spec_C7 (cfg : Config) (w : List ℚ) (a b c : ℚ)
    (h4 : 4 ≤ w.length) (hcap : w.length ≤ 4)
    (hrev : ¬ revSpikeCond cfg (changesOf w))
    (hlast : (changesOf w).drop ((changesOf w).length - 3) = [a, b, c])
    (_ha : a ≠ 0) (_hb : b ≠ 0) (_hc : c ≠ 0)
    (halt : (0 < a ∧ b < 0 ∧ 0 < c) ∨ (a < 0 ∧ 0 < b ∧ c < 0)) :
    estimateAccuracyFromPattern cfg w = 25 := by
  have hlen : w.length = 4 := le_antisymm hcap h4
  have hch : (changesOf w).length = 3 := by rw [changesOf_length, hlen]
  have hchs : changesOf w = [a, b, c] := by
    have h' := hlast
    rw [hch] at h'
    simpa using h'
  have hosc : oscillationCond (changesOf w) := by
    rw [hchs]
    unfold oscillationCond
    refine ⟨by norm_num, ?_⟩
    rcases halt with ⟨h1, h2, h3⟩ | ⟨h1, h2, h3⟩
    · simp [List.getD_cons_zero, List.getD_cons_succ, signOf_pos h1, signOf_neg h2, signOf_pos h3]
    · simp [List.getD_cons_zero, List.getD_cons_succ, signOf_neg h1, signOf_pos h2, signOf_neg h3]
  unfold estimateAccuracyFromPattern
  rw [if_neg (by omega), if_neg hrev, if_pos hosc]

theorem spec_C7_witness :
    estimateAccuracyFromPattern defaultConfig [10, 11, 10, 11] = 25 :=
  spec_C7 defaultConfig [10, 11, 10, 11] 1 (-1) 1
    (by norm_num) (by norm_num)
    (by norm_num [revSpikeCond, changesOf, defaultConfig])
    (by norm_num [changesOf])
    (by norm_num) (by norm_num) (by norm_num)
    (Or.inl (by norm_num))

/-- Claim C7, counterexample to the claim as stated (quantifying over all
windows with at least 4 elements): the 5-element window
[10, 10, 11, 10, 11] has last three differences 1, -1, 1 (non-zero,
alternating) and does not match the reversal rule, yet the estimate is 15
(micro-jitter), not 25, because the code inspects the first three
differences. -/
theorem spec_C7_counterexample :
    4 ≤ ([10, 10, 11, 10, 11] : List ℚ).length ∧
    ¬ revSpikeCond defaultConfig (changesOf [10, 10, 11, 10, 11]) ∧
    (changesOf ([10, 10, 11, 10, 11] : List ℚ)).drop
        ((changesOf ([10, 10, 11, 10, 11] : List ℚ)).length - 3) = [1, -1, 1] ∧
    ((1 : ℚ) ≠ 0 ∧ (-1 : ℚ) ≠ 0 ∧ (1 : ℚ) ≠ 0) ∧
    ((0 : ℚ) < 1 ∧ (-1 : ℚ) < 0 ∧ (0 : ℚ) < 1) ∧
    estimateAccuracyFromPattern defaultConfig [10, 10, 11, 10, 11] = 15 ∧
    ¬ estimateAccuracyFromPattern defaultConfig [10, 10, 11, 10, 11] = 25 := by
  have habs2 : |(2 : ℚ) / 5| = 2 / 5 := abs_of_nonneg (by norm_num)
  have habs3 : |(3 : ℚ) / 5| = 3 / 5 := abs_of_nonneg (by norm_num)
  refine ⟨by norm_num, ?_, by norm_num [changesOf], by norm_num, by norm_num, ?_, ?_⟩ <;>
    norm_num [estimateAccuracyFromPattern, revSpikeCond, oscillationCond, microJitterCond,
      signOf, changesOf, maxDeviation, meanOf, defaultConfig, habs2, habs3]

end SnowTeeth
